import Mathlib

/-!
Verification of the wgpu circle demo (src/main.rs).

The development shallowly embeds the Rust program: the tessellator
(Shape::generate_vertices) is modelled over the real numbers, the
application state (struct App) as a record of optional resource handles,
and the winit event handler (ApplicationHandler::window_event) together
with App::render_frame as pure step functions that also report the GPU
commands they would issue (surface reconfiguration, uniform upload, draw
submission) as an explicit action list.  A handler that would panic
(an unwrap on a missing window) returns none.
-/

namespace RustWgpuTest

/-- Vertex position, two floating-point coordinates in the Rust struct
Vertex; modelled with real coordinates. -/
abbrev Vertex := ℝ × ℝ

/-- Point on the circle at index i: the Rust code computes
angle = (i as f32 * 2.0 * PI) / segments as f32 and the position
center + radius * (cos angle, sin angle).  This is the x1,y1 / x2,y2
computation inside Shape::generate_vertices. -/
noncomputable def circlePoint (center : Vertex) (radius : ℝ) (segments : ℕ) (i : ℕ) : Vertex :=
  (center.1 + radius * Real.cos ((i : ℝ) * 2 * Real.pi / (segments : ℝ)),
   center.2 + radius * Real.sin ((i : ℝ) * 2 * Real.pi / (segments : ℝ)))

/-- Shape enum from src/main.rs; a single Circle variant with center,
radius and segment count. -/
inductive Shape where
  | circle (center : Vertex) (radius : ℝ) (segments : ℕ)

/-- Shape::generate_vertices: for each i in 0..segments the loop pushes
the center, the point at angle i, and the point at angle i+1. -/
noncomputable def Shape.generate_vertices : Shape → List Vertex
  | Shape.circle center radius segments =>
      (List.range segments).flatMap fun i =>
        [center, circlePoint center radius segments i, circlePoint center radius segments (i + 1)]

/-- Length of a flatMap over List.range when every block has length k. -/
lemma flatMap_range_length {α : Type*} (g : ℕ → List α) (k n : ℕ)
    (hk : ∀ i, (g i).length = k) :
    ((List.range n).flatMap g).length = k * n := by
  induction n with
  | zero => simp
  | succ n ih =>
      rw [List.range_succ, List.flatMap_append]
      simp [ih, hk, Nat.mul_succ]

/-- Element lookup in a flatMap over List.range with constant block
length k: position k * i + j lands at offset j of block i. -/
lemma flatMap_range_getElem {α : Type*} (g : ℕ → List α) (k n i j : ℕ)
    (hk : ∀ i, (g i).length = k) (hi : i < n) (hj : j < k) :
    ((List.range n).flatMap g)[k * i + j]? = (g i)[j]? := by
  induction n with
  | zero => exact absurd hi (Nat.not_lt_zero i)
  | succ n ih =>
      rw [List.range_succ, List.flatMap_append]
      rcases Nat.lt_or_ge i n with h | h
      · rw [List.getElem?_append_left, ih h]
        rw [flatMap_range_length g k n hk]
        calc k * i + j < k * i + k := by omega
          _ = k * (i + 1) := by ring
          _ ≤ k * n := Nat.mul_le_mul_left k h
      · have hin : i = n := by omega
        subst hin
        rw [List.getElem?_append_right]
        · rw [flatMap_range_length g k i hk]
          simp [Nat.add_sub_cancel_left]
        · rw [flatMap_range_length g k i hk]
          omega

/-- Length of the generated vertex list is three per segment. -/
lemma generate_vertices_length (c : Vertex) (r : ℝ) (n : ℕ) :
    ((Shape.circle c r n).generate_vertices).length = 3 * n :=
  flatMap_range_length _ 3 n (fun _ => rfl)

/-- Triple i of the generated vertex list is (center, point i, point (i+1)). -/
lemma generate_vertices_getElem (c : Vertex) (r : ℝ) (n i : ℕ) (hi : i < n) :
    ((Shape.circle c r n).generate_vertices)[3 * i]? = some c ∧
    ((Shape.circle c r n).generate_vertices)[3 * i + 1]? = some (circlePoint c r n i) ∧
    ((Shape.circle c r n).generate_vertices)[3 * i + 2]? = some (circlePoint c r n (i + 1)) := by
  refine ⟨?_, ?_, ?_⟩
  · have := flatMap_range_getElem
      (fun i => [c, circlePoint c r n i, circlePoint c r n (i + 1)]) 3 n i 0
      (fun i => rfl) hi (by omega)
    simpa [Shape.generate_vertices] using this
  · have := flatMap_range_getElem
      (fun i => [c, circlePoint c r n i, circlePoint c r n (i + 1)]) 3 n i 1
      (fun i => rfl) hi (by omega)
    simpa [Shape.generate_vertices] using this
  · have := flatMap_range_getElem
      (fun i => [c, circlePoint c r n i, circlePoint c r n (i + 1)]) 3 n i 2
      (fun i => rfl) hi (by omega)
    simpa [Shape.generate_vertices] using this

/-- C1: generate_vertices on Circle(c, r, n) returns exactly 3 * n
vertices, ordered as repeating triples (center, point i, point (i+1))
with point i at angle i * 2 * pi / n; with n = 0 the result is the empty
list and no error occurs (the function is total). -/
theorem c1_generate_vertices_triples (c : Vertex) (r : ℝ) (n : ℕ) :
    ((Shape.circle c r n).generate_vertices).length = 3 * n ∧
    (n = 0 → (Shape.circle c r n).generate_vertices = []) ∧
    (∀ i, i < n →
      ((Shape.circle c r n).generate_vertices)[3 * i]? = some c ∧
      ((Shape.circle c r n).generate_vertices)[3 * i + 1]? = some (circlePoint c r n i) ∧
      ((Shape.circle c r n).generate_vertices)[3 * i + 2]? = some (circlePoint c r n (i + 1))) := by
  refine ⟨generate_vertices_length c r n, ?_, fun i hi => generate_vertices_getElem c r n i hi⟩
  intro hn
  subst hn
  rfl

/-- Witness for C1 at a concrete circle: two segments, both side
conditions discharged at concrete inputs. -/
theorem c1_witness :
    ((Shape.circle ((0 : ℝ), (0 : ℝ)) 1 2).generate_vertices).length = 3 * 2 ∧
    (Shape.circle ((0 : ℝ), (0 : ℝ)) 1 0).generate_vertices = [] ∧
    ((Shape.circle ((0 : ℝ), (0 : ℝ)) 1 2).generate_vertices)[3 * 1]? =
      some ((0 : ℝ), (0 : ℝ)) :=
  ⟨(c1_generate_vertices_triples ((0 : ℝ), (0 : ℝ)) 1 2).1,
   (c1_generate_vertices_triples ((0 : ℝ), (0 : ℝ)) 1 0).2.1 rfl,
   ((c1_generate_vertices_triples ((0 : ℝ), (0 : ℝ)) 1 2).2.2 1 (by omega)).1⟩

/-- Euclidean distance between two vertices (the spec's distance from
center for the rim points). -/
noncomputable def euclidDist (p q : Vertex) : ℝ :=
  Real.sqrt ((p.1 - q.1) ^ 2 + (p.2 - q.2) ^ 2)

/-- Distance of any generated rim point from the center is the absolute
value of the radius. -/
lemma euclidDist_circlePoint (c : Vertex) (r : ℝ) (n k : ℕ) :
    euclidDist (circlePoint c r n k) c = |r| := by
  unfold euclidDist circlePoint
  have h1 : (c.1 + r * Real.cos ((k : ℝ) * 2 * Real.pi / (n : ℝ)) - c.1) ^ 2 +
      (c.2 + r * Real.sin ((k : ℝ) * 2 * Real.pi / (n : ℝ)) - c.2) ^ 2 = r ^ 2 := by
    have hc := Real.sin_sq_add_cos_sq ((k : ℝ) * 2 * Real.pi / (n : ℝ))
    nlinarith [hc]
  rw [h1, Real.sqrt_sq_eq_abs]

/-- The point at index n on an n-segment circle coincides with the point
at index 0, by periodicity of sine and cosine. -/
lemma circlePoint_wrap (c : Vertex) (r : ℝ) (n : ℕ) (hn : n ≠ 0) :
    circlePoint c r n n = circlePoint c r n 0 := by
  have hn0 : (n : ℝ) ≠ 0 := Nat.cast_ne_zero.mpr hn
  have ha : (n : ℝ) * 2 * Real.pi / (n : ℝ) = 2 * Real.pi := by
    field_simp
    ring
  unfold circlePoint
  rw [ha]
  norm_num [Real.cos_two_pi, Real.sin_two_pi]

/-- C6: for n at least 3 and every i below n, the second vertex of
triple i equals the third vertex of triple i-1 taken mod n; in the
real-valued model the equality is exact, hence within any floating-point
tolerance.  The triangle fan is closed. -/
theorem c6_fan_closed (c : Vertex) (r : ℝ) (n : ℕ) (hn : 3 ≤ n) (i : ℕ) (hi : i < n) :
    ((Shape.circle c r n).generate_vertices)[3 * i + 1]? =
      ((Shape.circle c r n).generate_vertices)[3 * ((i + n - 1) % n) + 2]? := by
  have hn0 : n ≠ 0 := by omega
  have hj : (i + n - 1) % n < n := Nat.mod_lt _ (by omega)
  have hL := (generate_vertices_getElem c r n i hi).2.1
  have hR := (generate_vertices_getElem c r n ((i + n - 1) % n) hj).2.2
  rw [hL, hR]
  rcases i with _ | m
  · have hmod : (0 + n - 1) % n = n - 1 := by
      rw [Nat.zero_add]
      exact Nat.mod_eq_of_lt (by omega)
    rw [hmod]
    have hsucc : n - 1 + 1 = n := by omega
    rw [hsucc, circlePoint_wrap c r n hn0]
  · have hmod : (m + 1 + n - 1) % n = m := by
      have h1 : m + 1 + n - 1 = m + n := by omega
      rw [h1, Nat.add_mod_right]
      exact Nat.mod_eq_of_lt (by omega)
    rw [hmod]

/-- Witness for C6 at a concrete circle with three segments, i = 0. -/
theorem c6_witness :
    3 ≤ 3 ∧ 0 < 3 ∧
    ((Shape.circle ((0 : ℝ), (0 : ℝ)) 1 3).generate_vertices)[3 * 0 + 1]? =
      ((Shape.circle ((0 : ℝ), (0 : ℝ)) 1 3).generate_vertices)[3 * ((0 + 3 - 1) % 3) + 2]? :=
  ⟨le_refl 3, by omega, c6_fan_closed ((0 : ℝ), (0 : ℝ)) 1 3 (le_refl 3) 0 (by omega)⟩

/-- C7, amended: for a non-negative radius, the two non-center vertices
of triple i lie at Euclidean distance exactly radius from the center in
the real-valued model (hence within the claimed 1e-5 tolerance).  The
original claim, quantified over every circle, fails for negative radii,
where the distance is the absolute value of the radius. -/
theorem c7_radius_distance (c : Vertex) (r : ℝ) (hr : 0 ≤ r) (n i : ℕ) (hi : i < n) :
    ((Shape.circle c r n).generate_vertices)[3 * i + 1]? = some (circlePoint c r n i) ∧
    ((Shape.circle c r n).generate_vertices)[3 * i + 2]? = some (circlePoint c r n (i + 1)) ∧
    euclidDist (circlePoint c r n i) c = r ∧
    euclidDist (circlePoint c r n (i + 1)) c = r := by
  refine ⟨(generate_vertices_getElem c r n i hi).2.1,
          (generate_vertices_getElem c r n i hi).2.2, ?_, ?_⟩
  · rw [euclidDist_circlePoint, abs_of_nonneg hr]
  · rw [euclidDist_circlePoint, abs_of_nonneg hr]

/-- Witness for C7 at radius 1, one segment, i = 0. -/
theorem c7_witness :
    (0 : ℝ) ≤ 1 ∧ 0 < 1 ∧
    euclidDist (circlePoint ((0 : ℝ), (0 : ℝ)) 1 1 0) ((0 : ℝ), (0 : ℝ)) = 1 :=
  ⟨zero_le_one, by omega,
   (c7_radius_distance ((0 : ℝ), (0 : ℝ)) 1 zero_le_one 1 0 (by omega)).2.2.1⟩

/-- Counterexample for C7 as stated: for the circle with center (0,0),
radius -1 and one segment, the second vertex of triple 0 is (-1, 0),
whose distance from the center is 1, not the radius -1; the gap of 2 is
far beyond the 1e-5 tolerance. -/
theorem c7_counterexample :
    ((Shape.circle ((0 : ℝ), (0 : ℝ)) (-1) 1).generate_vertices)[1]? =
      some ((-1 : ℝ), (0 : ℝ)) ∧
    ¬ (|euclidDist ((-1 : ℝ), (0 : ℝ)) ((0 : ℝ), (0 : ℝ)) - (-1)| ≤ 1e-5) := by
  constructor
  · show ((List.range 1).flatMap fun i =>
      [((0 : ℝ), (0 : ℝ)), circlePoint ((0 : ℝ), (0 : ℝ)) (-1) 1 i,
        circlePoint ((0 : ℝ), (0 : ℝ)) (-1) 1 (i + 1)])[1]? = some ((-1 : ℝ), (0 : ℝ))
    have h0 : circlePoint ((0 : ℝ), (0 : ℝ)) (-1) 1 0 = ((-1 : ℝ), (0 : ℝ)) := by
      unfold circlePoint
      norm_num
    simpa [List.range_succ] using h0
  · have hd : euclidDist ((-1 : ℝ), (0 : ℝ)) ((0 : ℝ), (0 : ℝ)) = 1 := by
      unfold euclidDist
      norm_num
    rw [hd]
    norm_num

/-- Point reflection of p through c. -/
def pointReflect (c p : Vertex) : Vertex := (2 * c.1 - p.1, 2 * c.2 - p.2)

/-- C9: negating the radius yields exactly the point reflection of the
original vertex sequence through the center; generate_vertices is total
on negative radii, with no clamping, validation or error. -/
theorem c9_negative_radius_mirrors (c : Vertex) (r : ℝ) (n : ℕ) :
    (Shape.circle c (-r) n).generate_vertices =
      ((Shape.circle c r n).generate_vertices).map (pointReflect c) := by
  show ((List.range n).flatMap fun i =>
      [c, circlePoint c (-r) n i, circlePoint c (-r) n (i + 1)]) =
    (((List.range n).flatMap fun i =>
      [c, circlePoint c r n i, circlePoint c r n (i + 1)]).map (pointReflect c))
  rw [List.map_flatMap]
  congr 1
  funext i
  simp only [List.map_cons, List.map_nil]
  have h0 : pointReflect c c = c := by
    unfold pointReflect
    rw [Prod.ext_iff]
    constructor <;> simp <;> ring
  have h1 : pointReflect c (circlePoint c r n i) = circlePoint c (-r) n i := by
    unfold pointReflect circlePoint
    rw [Prod.ext_iff]
    constructor <;> simp <;> ring
  have h2 : pointReflect c (circlePoint c r n (i + 1)) = circlePoint c (-r) n (i + 1) := by
    unfold pointReflect circlePoint
    rw [Prod.ext_iff]
    constructor <;> simp <;> ring
  rw [h0, h1, h2]

/-- Surface configuration, restricted to the fields the event handler
mutates (width and height of wgpu::SurfaceConfiguration). -/
structure SurfaceConfig where
  width : ℕ
  height : ℕ

/-- Per-frame record of what one App::render_frame invocation submits:
the clear color of the single render pass, the uniform buffer contents
bound through the bind group, the vertex buffer contents, and the draw
call range draw(draw_start..draw_start + draw_count). -/
structure Frame where
  clear_color : ℚ × ℚ × ℚ × ℚ
  uniform : Option ℚ
  vertices : List Vertex
  draw_start : ℕ
  draw_count : ℕ

/-- GPU-visible commands a handler invocation issues, in order. -/
inductive Action where
  | configure_surface (width height : ℕ)
  | write_uniform (value : ℚ)
  | request_redraw
  | submit_frame (f : Frame)
  | exit_loop
  | print_key

/-- The App struct of src/main.rs: every GPU resource is an Option that
is None until initialize_wgpu runs.  Resource handles carry no data of
their own except the vertex buffer (its uploaded contents), the surface
configuration (its dimensions) and the uniform buffer (its current
float, modelled as a rational). -/
structure AppState where
  window : Option Unit
  surface : Option Unit
  device : Option Unit
  queue : Option Unit
  render_pipeline : Option Unit
  vertex_buffer : Option (List Vertex)
  config : Option SurfaceConfig
  shapes : List Shape
  num_vertices : ℕ
  uniform_buffer : Option ℚ
  uniform_bind_group : Option Unit
  mouse_state : Vertex

/-- App::default: every optional field None, no shapes, zero vertices,
mouse at the origin. -/
noncomputable def AppState.default : AppState :=
  ⟨none, none, none, none, none, none, none, [], 0, none, none, ((0 : ℝ), (0 : ℝ))⟩

/-- App::update_uniform_buffer: when both the queue and the uniform
buffer exist, writes aspect = height / width (computed from the given,
unclamped dimensions) into the uniform buffer; otherwise does nothing. -/
def update_uniform_buffer (s : AppState) (width height : ℕ) : AppState × List Action :=
  match s.queue, s.uniform_buffer with
  | some _, some _ =>
      ({ s with uniform_buffer := some ((height : ℚ) / (width : ℚ)) },
       [Action.write_uniform ((height : ℚ) / (width : ℚ))])
  | _, _ => (s, [])

/-- App::initialize_wgpu: builds every GPU resource, tessellates the
configured shape list (one circle, center (0,0), radius 0.05, 32
segments), uploads the vertices, records their count, creates the
uniform buffer with aspect = window height / window width, and
configures the surface with the window's inner size. -/
noncomputable def initialize_wgpu (s : AppState) (winWidth winHeight : ℕ) : AppState :=
  let shapes := [Shape.circle ((0 : ℝ), (0 : ℝ)) 0.05 32]
  let vertices := shapes.flatMap Shape.generate_vertices
  { s with
    window := some ()
    surface := some ()
    device := some ()
    queue := some ()
    render_pipeline := some ()
    vertex_buffer := some vertices
    config := some ⟨winWidth, winHeight⟩
    shapes := shapes
    num_vertices := vertices.length
    uniform_buffer := some ((winHeight : ℚ) / (winWidth : ℚ))
    uniform_bind_group := some () }

/-- App::render_frame: when the six resources named in its guard
(surface, device, queue, render pipeline, vertex buffer, uniform bind
group) all exist, records one render pass that clears to (0.1, 0.2,
0.3, 1.0), binds the uniform bind group and the vertex buffer, and
draws the range 0..num_vertices; otherwise it does nothing. -/
def render_frame (s : AppState) : Option Frame :=
  match s.surface, s.device, s.queue, s.render_pipeline, s.vertex_buffer,
      s.uniform_bind_group with
  | some _, some _, some _, some _, some vb, some _ =>
      some { clear_color := (0.1, 0.2, 0.3, 1)
             uniform := s.uniform_buffer
             vertices := vb
             draw_start := 0
             draw_count := s.num_vertices }
  | _, _, _, _, _, _ => none

/-- Window events delivered by winit, restricted to the variants the
handler matches on. -/
inductive Event where
  | close_requested
  | resized (width height : ℕ)
  | redraw_requested
  | keyboard_input (pressed : Bool)
  | cursor_moved (pos : ℝ × ℝ)
  | other

/-- ApplicationHandler::window_event of src/main.rs as a step function.
Returns the successor state and the ordered list of issued commands, or
none when the handler would panic (the unwrap of self.window).  The ndc
parameter stands for the cursor mapping self.window_position_to_ndc.
Modelled from the spec: window_position_to_ndc is called at the
CursorMoved arm but its definition is missing from src; the spec says
only that it maps the cursor position to normalized device coordinates,
so it is kept abstract as a parameter. -/
def window_event (ndc : ℝ × ℝ → Vertex) (s : AppState) (e : Event) :
    Option (AppState × List Action) :=
  match e with
  | Event.close_requested => some (s, [Action.exit_loop])
  | Event.resized w h =>
      match s.surface, s.device, s.config with
      | some _, some _, some _ =>
          match s.window with
          | some _ =>
              some ((update_uniform_buffer { s with config := some ⟨max w 1, max h 1⟩ } w h).1,
                Action.configure_surface (max w 1) (max h 1) ::
                  ((update_uniform_buffer { s with config := some ⟨max w 1, max h 1⟩ } w h).2 ++
                    [Action.request_redraw]))
          | none => none
      | _, _, _ => some (s, [])
  | Event.redraw_requested =>
      match render_frame s with
      | some f => some (s, [Action.submit_frame f])
      | none => some (s, [])
  | Event.keyboard_input pressed =>
      some (s, if pressed then [Action.print_key] else [])
  | Event.cursor_moved pos =>
      match s.window with
      | some _ => some ({ s with mouse_state := ndc pos }, [Action.request_redraw])
      | none => none
  | Event.other => some (s, [])

/-- Successor state of one handler step, with the no-step fallback. -/
def stepState (ndc : ℝ × ℝ → Vertex) (s : AppState) (e : Event) : AppState :=
  ((window_event ndc s e).getD (s, [])).1

/-- Readiness predicate: every optional resource field of App is
populated, as established by initialize_wgpu. -/
def Initialized (s : AppState) : Prop :=
  s.window.isSome = true ∧ s.surface.isSome = true ∧ s.device.isSome = true ∧
  s.queue.isSome = true ∧ s.render_pipeline.isSome = true ∧
  s.vertex_buffer.isSome = true ∧ s.config.isSome = true ∧
  s.uniform_buffer.isSome = true ∧ s.uniform_bind_group.isSome = true

/-- Draw-range invariant: num_vertices always equals the length of the
uploaded vertex buffer. -/
def drawRangeInv (s : AppState) : Prop :=
  ∀ vb, s.vertex_buffer = some vb → s.num_vertices = vb.length

/-- Commands issued by one handler step, with the no-step fallback. -/
def stepActs (ndc : ℝ × ℝ → Vertex) (s : AppState) (e : Event) : List Action :=
  ((window_event ndc s e).getD (s, [])).2

/-- The vertex list built at initialization has 96 elements: one circle
with 32 segments, three vertices per segment. -/
lemma init_vertices_length :
    ([Shape.circle ((0 : ℝ), (0 : ℝ)) 0.05 32].flatMap Shape.generate_vertices).length = 96 := by
  simp only [List.flatMap_cons, List.flatMap_nil, List.append_nil]
  rw [generate_vertices_length]

/-- No handler step ever changes the uploaded vertex buffer or the
stored vertex count. -/
lemma window_event_preserves_buffer (ndc : ℝ × ℝ → Vertex) (s : AppState) (e : Event)
    (s2 : AppState) (acts : List Action)
    (h : window_event ndc s e = some (s2, acts)) :
    s2.vertex_buffer = s.vertex_buffer ∧ s2.num_vertices = s.num_vertices := by
  cases e with
  | close_requested =>
      simp only [window_event, Option.some.injEq, Prod.mk.injEq] at h
      obtain ⟨h1, -⟩ := h
      subst h1
      exact ⟨rfl, rfl⟩
  | resized w h' =>
      simp only [window_event] at h
      split at h
      · split at h
        · simp only [Option.some.injEq, Prod.mk.injEq] at h
          obtain ⟨h1, -⟩ := h
          subst h1
          unfold update_uniform_buffer
          split <;> exact ⟨rfl, rfl⟩
        · exact Option.noConfusion h
      · simp only [Option.some.injEq, Prod.mk.injEq] at h
        obtain ⟨h1, -⟩ := h
        subst h1
        exact ⟨rfl, rfl⟩
  | redraw_requested =>
      simp only [window_event] at h
      split at h <;>
      · simp only [Option.some.injEq, Prod.mk.injEq] at h
        obtain ⟨h1, -⟩ := h
        subst h1
        exact ⟨rfl, rfl⟩
  | keyboard_input pressed =>
      simp only [window_event, Option.some.injEq, Prod.mk.injEq] at h
      obtain ⟨h1, -⟩ := h
      subst h1
      exact ⟨rfl, rfl⟩
  | cursor_moved pos =>
      simp only [window_event] at h
      split at h
      · simp only [Option.some.injEq, Prod.mk.injEq] at h
        obtain ⟨h1, -⟩ := h
        subst h1
        exact ⟨rfl, rfl⟩
      · exact Option.noConfusion h
  | other =>
      simp only [window_event, Option.some.injEq, Prod.mk.injEq] at h
      obtain ⟨h1, -⟩ := h
      subst h1
      exact ⟨rfl, rfl⟩

/-- C2: after initialization with the configured shape list (one circle
of 32 segments), the vertex buffer holds exactly 96 vertices and
num_vertices is 96; the frame recorded by render_frame draws the range
0..num_vertices; and the draw range always equals the uploaded buffer
length: the invariant holds after initialization, is preserved by every
handler step, and makes every recorded draw call cover exactly the
buffer. -/
theorem c2_draw_range_matches_buffer :
    (∀ w h : ℕ, (initialize_wgpu AppState.default w h).num_vertices = 96 ∧
      ∀ vb, (initialize_wgpu AppState.default w h).vertex_buffer = some vb →
        vb.length = 96) ∧
    (∀ w h : ℕ, ∀ f, render_frame (initialize_wgpu AppState.default w h) = some f →
      f.draw_start = 0 ∧ f.draw_count = 96 ∧ f.draw_count = f.vertices.length) ∧
    (∀ ndc s e s2 acts, drawRangeInv s →
      window_event ndc s e = some (s2, acts) → drawRangeInv s2) ∧
    (∀ s f, drawRangeInv s → render_frame s = some f →
      f.draw_start = 0 ∧ f.draw_count = f.vertices.length) := by
  refine ⟨?_, ?_, ?_, ?_⟩
  · intro w h
    constructor
    · show ([Shape.circle ((0 : ℝ), (0 : ℝ)) 0.05 32].flatMap Shape.generate_vertices).length = 96
      exact init_vertices_length
    · intro vb hvb
      have h1 : some ([Shape.circle ((0 : ℝ), (0 : ℝ)) 0.05 32].flatMap Shape.generate_vertices) =
          some vb := hvb
      have h2 := Option.some.inj h1
      rw [← h2]
      exact init_vertices_length
  · intro w h f hf
    have h1 : some (⟨(0.1, 0.2, 0.3, 1), some ((h : ℚ) / (w : ℚ)),
        [Shape.circle ((0 : ℝ), (0 : ℝ)) 0.05 32].flatMap Shape.generate_vertices, 0,
        ([Shape.circle ((0 : ℝ), (0 : ℝ)) 0.05 32].flatMap Shape.generate_vertices).length⟩ :
        Frame) = some f := hf
    have h2 := Option.some.inj h1
    subst h2
    exact ⟨rfl, init_vertices_length, init_vertices_length.symm ▸ rfl⟩
  · intro ndc s e s2 acts hInv hstep
    intro vb hvb
    obtain ⟨hb, hn⟩ := window_event_preserves_buffer ndc s e s2 acts hstep
    rw [hn]
    exact hInv vb (hb ▸ hvb)
  · intro s f hInv hf
    obtain ⟨win, srf, dev, q, rp, vb0, cfg, shp, nv, ub, ubg, ms⟩ := s
    cases srf <;> cases dev <;> cases q <;> cases rp <;> cases vb0 <;> cases ubg <;>
      simp_all [render_frame, drawRangeInv]
    subst hf
    exact ⟨rfl, rfl⟩

/-- Witness for C2: at window size 800 x 600 the initialized state has
96 vertices recorded and satisfies the draw-range invariant. -/
theorem c2_witness :
    (initialize_wgpu AppState.default 800 600).num_vertices = 96 ∧
    drawRangeInv (initialize_wgpu AppState.default 800 600) := by
  refine ⟨(c2_draw_range_matches_buffer.1 800 600).1, ?_⟩
  intro vb hvb
  rw [(c2_draw_range_matches_buffer.1 800 600).1,
    (c2_draw_range_matches_buffer.1 800 600).2 vb hvb]

/-- C3: in a fully initialized state, every Resized(w, h) event,
including Resized(0, 0), completes without panicking: the handler
returns a successor state (never the panic outcome), the surface is
reconfigured with both dimensions clamped to at least 1, and the
aspect-ratio uniform is recomputed and re-uploaded. -/
theorem c3_resize_no_crash (ndc : ℝ × ℝ → Vertex) (s : AppState) (w h : ℕ)
    (hs : Initialized s) :
    ∃ s2 acts, window_event ndc s (Event.resized w h) = some (s2, acts) ∧
      s2.config = some ⟨max w 1, max h 1⟩ ∧
      Action.configure_surface (max w 1) (max h 1) ∈ acts ∧
      s2.uniform_buffer = some ((h : ℚ) / (w : ℚ)) ∧
      Action.write_uniform ((h : ℚ) / (w : ℚ)) ∈ acts ∧
      Action.request_redraw ∈ acts := by
  obtain ⟨win, srf, dev, q, rp, vb, cfg, shp, nv, ub, ubg, ms⟩ := s
  obtain ⟨h1, h2, h3, h4, h5, h6, h7, h8, h9⟩ := hs
  rw [Option.isSome_iff_exists] at h1 h2 h3 h4 h8
  obtain ⟨u1, rfl⟩ := h1
  obtain ⟨u2, rfl⟩ := h2
  obtain ⟨u3, rfl⟩ := h3
  obtain ⟨u4, rfl⟩ := h4
  obtain ⟨q8, rfl⟩ := h8
  rcases h7up : cfg with - | cfgv
  · simp [h7up] at h7
  exact ⟨_, _, rfl, rfl, by simp, rfl, by simp [update_uniform_buffer],
    by simp [update_uniform_buffer]⟩

/-- Witness for C3: the initialized 800 x 600 state survives a resize
to 0 x 0. -/
theorem c3_witness :
    Initialized (initialize_wgpu AppState.default 800 600) ∧
    ∃ s2 acts, window_event id (initialize_wgpu AppState.default 800 600)
        (Event.resized 0 0) = some (s2, acts) ∧
      s2.config = some ⟨max 0 1, max 0 1⟩ ∧
      Action.configure_surface (max 0 1) (max 0 1) ∈ acts ∧
      s2.uniform_buffer = some (((0 : ℕ) : ℚ) / ((0 : ℕ) : ℚ)) ∧
      Action.write_uniform (((0 : ℕ) : ℚ) / ((0 : ℕ) : ℚ)) ∈ acts ∧
      Action.request_redraw ∈ acts :=
  have hs : Initialized (initialize_wgpu AppState.default 800 600) :=
    ⟨rfl, rfl, rfl, rfl, rfl, rfl, rfl, rfl, rfl⟩
  ⟨hs, c3_resize_no_crash id (initialize_wgpu AppState.default 800 600) 0 0 hs⟩

/-- C4: a resize to (w, h) in an initialized state uploads exactly
h / w to the uniform buffer; concretely, starting from a 100 x 100
window, resizing to 800 x 600 stores 0.75, a subsequent resize to
1920 x 1080 updates it to 0.5625, and the next recorded frame binds
that value. -/
theorem c4_aspect_uniform (ndc : ℝ × ℝ → Vertex) (s : AppState) (w h : ℕ)
    (hs : Initialized s) :
    ((stepState ndc s (Event.resized w h)).uniform_buffer = some ((h : ℚ) / (w : ℚ)) ∧
     Action.write_uniform ((h : ℚ) / (w : ℚ)) ∈ stepActs ndc s (Event.resized w h)) ∧
    ((stepState id (initialize_wgpu AppState.default 100 100)
        (Event.resized 800 600)).uniform_buffer = some (3 / 4) ∧
     (stepState id (stepState id (initialize_wgpu AppState.default 100 100)
        (Event.resized 800 600)) (Event.resized 1920 1080)).uniform_buffer = some (9 / 16) ∧
     (render_frame (stepState id (stepState id (initialize_wgpu AppState.default 100 100)
        (Event.resized 800 600)) (Event.resized 1920 1080))).map Frame.uniform =
       some (some (9 / 16))) := by
  constructor
  · obtain ⟨win, srf, dev, q, rp, vb, cfg, shp, nv, ub, ubg, ms⟩ := s
    obtain ⟨h1, h2, h3, h4, h5, h6, h7, h8, h9⟩ := hs
    rw [Option.isSome_iff_exists] at h1 h2 h3 h4 h8
    obtain ⟨u1, rfl⟩ := h1
    obtain ⟨u2, rfl⟩ := h2
    obtain ⟨u3, rfl⟩ := h3
    obtain ⟨u4, rfl⟩ := h4
    obtain ⟨q8, rfl⟩ := h8
    rcases h7up : cfg with - | cfgv
    · simp [h7up] at h7
    exact ⟨rfl, by simp [stepActs, window_event, update_uniform_buffer]⟩
  · refine ⟨?_, ?_, ?_⟩
    · show some (((600 : ℕ) : ℚ) / ((800 : ℕ) : ℚ)) = some (3 / 4)
      norm_num
    · show some (((1080 : ℕ) : ℚ) / ((1920 : ℕ) : ℚ)) = some (9 / 16)
      norm_num
    · show some (some (((1080 : ℕ) : ℚ) / ((1920 : ℕ) : ℚ))) = some (some (9 / 16))
      norm_num

/-- Witness for C4: the initialized 640 x 480 state resized to
800 x 600 uploads 600 / 800. -/
theorem c4_witness :
    Initialized (initialize_wgpu AppState.default 640 480) ∧
    (stepState id (initialize_wgpu AppState.default 640 480)
        (Event.resized 800 600)).uniform_buffer =
      some (((600 : ℕ) : ℚ) / ((800 : ℕ) : ℚ)) ∧
    Action.write_uniform (((600 : ℕ) : ℚ) / ((800 : ℕ) : ℚ)) ∈
      stepActs id (initialize_wgpu AppState.default 640 480) (Event.resized 800 600) :=
  have hs : Initialized (initialize_wgpu AppState.default 640 480) :=
    ⟨rfl, rfl, rfl, rfl, rfl, rfl, rfl, rfl, rfl⟩
  ⟨hs, (c4_aspect_uniform id (initialize_wgpu AppState.default 640 480) 800 600 hs).1.1,
    (c4_aspect_uniform id (initialize_wgpu AppState.default 640 480) 800 600 hs).1.2⟩

/-- C5: a cursor-move event performed in any state with a window
stores the ndc-mapped cursor position into mouse_state and requests a
redraw, in the same handler step; and rendering never consumes
mouse_state: render_frame returns identical output on any two states
differing only in mouse_state.  The ndc map itself is modelled from
the spec because window_position_to_ndc is missing from src. -/
theorem c5_mouse_not_consumed (ndc : ℝ × ℝ → Vertex) (s : AppState) (pos : ℝ × ℝ)
    (hw : s.window = some ()) :
    window_event ndc s (Event.cursor_moved pos) =
      some ({ s with mouse_state := ndc pos }, [Action.request_redraw]) ∧
    ∀ m, render_frame { s with mouse_state := m } = render_frame s := by
  constructor
  · simp only [window_event, hw]
  · intro m
    rfl

/-- Witness for C5: cursor move on the initialized 640 x 480 state. -/
theorem c5_witness :
    (initialize_wgpu AppState.default 640 480).window = some () ∧
    window_event id (initialize_wgpu AppState.default 640 480)
        (Event.cursor_moved ((1 : ℝ), (2 : ℝ))) =
      some ({ initialize_wgpu AppState.default 640 480 with
                mouse_state := id ((1 : ℝ), (2 : ℝ)) },
        [Action.request_redraw]) :=
  ⟨rfl, (c5_mouse_not_consumed id (initialize_wgpu AppState.default 640 480)
    ((1 : ℝ), (2 : ℝ)) rfl).1⟩

/-- C8: resize is idempotent under repeated identical sizes.  If one
Resized(w, h) step takes the app to state s1 issuing commands a1, then
a second identical Resized(w, h) step from s1 reproduces exactly the
same state s1 (same surface configuration dimensions, same uploaded
uniform value, same everything) and the same commands. -/
theorem c8_resize_idempotent (ndc : ℝ × ℝ → Vertex) (s : AppState) (w h : ℕ)
    (s1 : AppState) (a1 : List Action)
    (h1 : window_event ndc s (Event.resized w h) = some (s1, a1)) :
    window_event ndc s1 (Event.resized w h) = some (s1, a1) := by
  obtain ⟨win, srf, dev, q, rp, vb, cfg, shp, nv, ub, ubg, ms⟩ := s
  cases srf <;> cases dev <;> cases cfg <;> cases win <;> cases q <;> cases ub
  all_goals
    simp only [window_event, update_uniform_buffer, Option.some.injEq, Prod.mk.injEq] at h1
  all_goals
    obtain ⟨h1a, h1b⟩ := h1
  all_goals
    subst h1a
  all_goals
    subst h1b
  all_goals
    rfl

/-- Witness for C8: resizing the initialized 800 x 600 state to
1024 x 768 twice gives the state and commands of the first resize. -/
theorem c8_witness :
    window_event id
        (stepState id (initialize_wgpu AppState.default 800 600) (Event.resized 1024 768))
        (Event.resized 1024 768) =
      some (stepState id (initialize_wgpu AppState.default 800 600) (Event.resized 1024 768),
        stepActs id (initialize_wgpu AppState.default 800 600) (Event.resized 1024 768)) :=
  c8_resize_idempotent id (initialize_wgpu AppState.default 800 600) 1024 768 _ _ rfl

/-- C10, amended: in the pre-initialization state, where all optional
resource fields are None, render_frame and the Resized handler are
no-ops: no commands, no state change, no panic.  More precisely,
render_frame is a no-op whenever any of the six fields in its guard
(surface, device, queue, render pipeline, vertex buffer, uniform bind
group) is None, and the Resized handler whenever surface, device or
config is None; the original claim, which promised a no-op whenever
ANY resource field is None, fails because the guards do not cover
uniform_buffer or config (see the counterexample). -/
theorem c10_uninitialized_noop (ndc : ℝ × ℝ → Vertex) (w h : ℕ) :
    window_event ndc AppState.default (Event.resized w h) = some (AppState.default, []) ∧
    window_event ndc AppState.default Event.redraw_requested = some (AppState.default, []) ∧
    render_frame AppState.default = none ∧
    (∀ s : AppState,
      s.surface = none ∨ s.device = none ∨ s.queue = none ∨ s.render_pipeline = none ∨
        s.vertex_buffer = none ∨ s.uniform_bind_group = none →
      render_frame s = none ∧
      window_event ndc s Event.redraw_requested = some (s, [])) ∧
    (∀ s : AppState,
      s.surface = none ∨ s.device = none ∨ s.config = none →
      window_event ndc s (Event.resized w h) = some (s, [])) := by
  refine ⟨rfl, rfl, rfl, ?_, ?_⟩
  · intro s hnone
    have hrf : render_frame s = none := by
      unfold render_frame
      split
      · simp_all
      · rfl
    refine ⟨hrf, ?_⟩
    simp only [window_event, hrf]
  · intro s hnone
    simp only [window_event]
    split
    · simp_all
    · rfl

/-- Witness for C10: both handlers are no-ops on the default state
(surface None), and render_frame is also a no-op when only the device
is missing. -/
theorem c10_witness :
    render_frame AppState.default = none ∧
    window_event id AppState.default (Event.resized 0 0) = some (AppState.default, []) ∧
    window_event id AppState.default Event.redraw_requested = some (AppState.default, []) ∧
    render_frame { initialize_wgpu AppState.default 1 1 with device := none } = none :=
  ⟨((c10_uninitialized_noop id 0 0).2.2.2.1 AppState.default (Or.inl rfl)).1,
   (c10_uninitialized_noop id 0 0).2.2.2.2 AppState.default (Or.inl rfl),
   ((c10_uninitialized_noop id 0 0).2.2.2.1 AppState.default (Or.inl rfl)).2,
   ((c10_uninitialized_noop id 0 0).2.2.2.1
      { initialize_wgpu AppState.default 1 1 with device := none }
      (Or.inr (Or.inl rfl))).1⟩

/-- Counterexample for C10 as stated: a state whose every resource is
populated except uniform_buffer, which is None.  uniform_buffer is a
GPU resource field of App, yet render_frame is not a no-op there: its
guard never inspects uniform_buffer, so it still records and submits a
full frame. -/
theorem c10_counterexample :
    ({ initialize_wgpu AppState.default 1 1 with uniform_buffer := none } : AppState).uniform_buffer
        = none ∧
    render_frame { initialize_wgpu AppState.default 1 1 with uniform_buffer := none } ≠ none := by
  constructor
  · rfl
  · intro hbad
    have hsome : (some (⟨(0.1, 0.2, 0.3, 1), none,
        [Shape.circle ((0 : ℝ), (0 : ℝ)) 0.05 32].flatMap Shape.generate_vertices, 0,
        ([Shape.circle ((0 : ℝ), (0 : ℝ)) 0.05 32].flatMap Shape.generate_vertices).length⟩ :
          Frame) : Option Frame) = none := hbad
    exact Option.noConfusion hsome

end RustWgpuTest
